import Mathlib

/-!
Verification of the `ThumbnailExporter` Unreal Engine editor plugin
(`Plugins/ThumbnailExporter/Source/ThumbnailExporter`).

The plugin is a thin adapter over host-engine subsystems.  We embed it
shallowly: engine strings (`FString`) are lists of characters, the host
engine (asset registry, thumbnail renderer, image wrapper, file manager)
is an abstract `Engine` record of pure functions, and a call to the
routine is modelled by the ordered list of observable effects (engine
calls, log lines, file-system operations) it performs.  The `FPaths`
path helpers the routine calls (`ChangeExtension`, `GetPath`,
`GetExtension`, `GetBaseFilename`) are engine library functions; they
are embedded here following the engine's implementation in
`Misc/Paths.cpp` (scan for the last `.` after the last slash or
backslash, replace the extension only when one exists, otherwise return
the path unchanged).
-/

namespace ThumbnailExporter

/-- Engine `FString`, embedded as a list of characters. -/
abbrev FString := List Char

/-- Characters the engine's path helpers treat as directory separators. -/
def isSlashOrBackslash (c : Char) : Bool :=
  c = '/' || c = '\\'

namespace FPaths

/-- Scanning a REVERSED path from the front (that is, the original path
from its end): if a `.` occurs before any separator, return the part of
the reversed path after that `.` (the reversed stem, the original path
up to but excluding the last dot); otherwise the path has no extension
and the result is `none`. -/
def chopExtRev : List Char → Option (List Char)
  | [] => none
  | c :: rest =>
    if c = '.' then some rest
    else if isSlashOrBackslash c then none
    else chopExtRev rest

/-- On a REVERSED path: the characters before the first separator, in
reversed order — the reversed clean filename of the original path. -/
def takeFileRev : List Char → List Char
  | [] => []
  | c :: rest =>
    if isSlashOrBackslash c then []
    else c :: takeFileRev rest

/-- On a REVERSED path: everything after the first separator — the
reversed directory part of the original path (empty when there is no
separator). -/
def dropFileRev : List Char → List Char
  | [] => []
  | c :: rest =>
    if isSlashOrBackslash c then rest
    else dropFileRev rest

/-- On a REVERSED clean filename: the characters before the first `.`
(the reversed extension of the original filename), or `none` when the
filename contains no dot. -/
def takeUntilDotRev : List Char → Option (List Char)
  | [] => none
  | c :: rest =>
    if c = '.' then some []
    else (takeUntilDotRev rest).map (fun e => c :: e)

/-- Embedding of `FPaths::ChangeExtension`.  When the path has an
extension (a `.` after the last separator) the extension is replaced by
`newExt` (a leading `.` is inserted when `newExt` lacks one); when the
path has no extension, the path is returned UNCHANGED. -/
def changeExtension (path newExt : FString) : FString :=
  match chopExtRev path.reverse with
  | some stemRev =>
    stemRev.reverse ++
      (if newExt ≠ [] && newExt.head? ≠ some '.' then ['.'] else []) ++ newExt
  | none => path

/-- Embedding of `FPaths::GetPath`: the part of the path before the last
separator (empty when there is none). -/
def getPath (path : FString) : FString :=
  (dropFileRev path.reverse).reverse

/-- Embedding of `FPaths::GetCleanFilename`: the part of the path after
the last separator. -/
def getCleanFilename (path : FString) : FString :=
  (takeFileRev path.reverse).reverse

/-- Embedding of `FPaths::GetExtension` (without the dot): the part of
the clean filename after its last `.`, or empty when the filename has no
dot. -/
def getExtension (path : FString) : FString :=
  match takeUntilDotRev (takeFileRev path.reverse) with
  | some extRev => extRev.reverse
  | none => []

/-- Embedding of `FPaths::GetBaseFilename`: the clean filename with its
extension (if any) removed. -/
def getBaseFilename (path : FString) : FString :=
  match chopExtRev (takeFileRev path.reverse) with
  | some stemRev => stemRev.reverse
  | none => (takeFileRev path.reverse).reverse

/-- Whether the path has an extension: a `.` after the last separator. -/
def hasExtension (path : FString) : Bool :=
  (chopExtRev path.reverse).isSome

end FPaths

/-- An engine `UObject` reference, abstracted to an identifier. -/
structure UObject where
  id : Nat
deriving DecidableEq, Repr

/-- The engine's `FObjectThumbnail`: an uncompressed pixel buffer with
its reported dimensions (`GetUncompressedImageData`, `GetImageWidth`,
`GetImageHeight`). -/
structure FObjectThumbnail where
  uncompressedImageData : List Nat
  imageWidth : Nat
  imageHeight : Nat
deriving DecidableEq, Repr

/-- The raw pixel formats of `ERGBFormat` used by the image wrapper. -/
inductive ERGBFormat where
  | RGBA
  | BGRA
  | Gray
deriving DecidableEq, Repr

/-- The host engine environment: every engine subsystem the routine
calls, abstracted to a pure function.  The routine under verification is
parametric in this record. -/
structure Engine where
  /-- Asset registry lookup followed by `FAssetData::GetAsset`: `none`
  models a null `UObject*`. -/
  getAssetByObjectPath : FString → Option UObject
  /-- `ThumbnailTools::RenderThumbnail`: the thumbnail the renderer
  fills in for an object at a requested width and height. -/
  renderThumbnail : UObject → Nat → Nat → FObjectThumbnail
  /-- Whether `IImageWrapperModule::CreateImageWrapper(EImageFormat::JPEG)`
  yields a valid wrapper. -/
  createImageWrapperJPEGValid : Bool
  /-- `IImageWrapper::GetCompressed` after `SetRaw`: the compressed
  bytes as a function of the raw data, dimensions, pixel format, bit
  depth and quality. -/
  getCompressed : List Nat → Nat → Nat → ERGBFormat → Nat → Nat → List Nat
  /-- `IFileManager::DirectoryExists`. -/
  directoryExists : FString → Bool
  /-- Whether `FFileHelper::SaveArrayToFile` succeeds for the given
  bytes and path. -/
  saveFileOk : List Nat → FString → Bool

/-- One observable effect of a call into the plugin: a log line, an
engine subsystem call, or a file-system operation.  A
`saveArrayToFile` effect records the attempted write together with its
outcome; a file is produced exactly when the outcome is `true`. -/
inductive Effect where
  | logWarning (fmt : String)
  | logInfo (fmt : String)
  | getAssetCall (path : FString)
  | renderThumbnailCall (obj : UObject) (width height : Nat)
  | setRaw (dataLen width height : Nat) (format : ERGBFormat) (bitDepth : Nat)
  | getCompressedCall (quality : Nat)
  | makeDirectory (dir : FString) (tree : Bool)
  | saveArrayToFile (bytes : List Nat) (path : FString) (ok : Bool)
deriving DecidableEq, Repr

/-- Whether an effect is a log line (`UE_LOG`). -/
def Effect.isLog : Effect → Bool
  | .logWarning _ => true
  | .logInfo _ => true
  | _ => false

/-- The source's local `NewOutputPath = FPaths::ChangeExtension(OutputPath,
".jpg")` (`ThumbnailExporter.cpp`, line 41). -/
def NewOutputPath (OutputPath : FString) : FString :=
  FPaths.changeExtension OutputPath (".jpg".toList)

/-- The source's local `ObjectThumbnail`, filled in by
`ThumbnailTools::RenderThumbnail` at the requested `ThumbnailSize = 256`
for both dimensions (`ThumbnailExporter.cpp`, lines 55-65). -/
def ObjectThumbnail (eng : Engine) (MyObject : UObject) : FObjectThumbnail :=
  eng.renderThumbnail MyObject 256 256

/-- The source's local `CompressedByteArray`: the wrapper is fed the
thumbnail's raw data at the thumbnail's own reported dimensions in BGRA
with 8 bits per channel, then compressed at quality 95
(`ThumbnailExporter.cpp`, lines 84-93). -/
def CompressedByteArray (eng : Engine) (MyObject : UObject) : List Nat :=
  eng.getCompressed (ObjectThumbnail eng MyObject).uncompressedImageData
    (ObjectThumbnail eng MyObject).imageWidth
    (ObjectThumbnail eng MyObject).imageHeight
    ERGBFormat.BGRA 8 95

/-- The source's local `OutputDirectory = FPaths::GetPath(NewOutputPath)`
(`ThumbnailExporter.cpp`, line 102). -/
def OutputDirectory (OutputPath : FString) : FString :=
  FPaths.getPath (NewOutputPath OutputPath)

/-- Embedding of `UThumbnailExporter::ExportThumbnailAsPNG`
(`ThumbnailExporter.cpp`, lines 32-117).  The C++ routine returns
`void`; its observable behaviour is the ordered list of effects it
performs, which is what this function computes.  Log format strings are
kept verbatim (`%s` interpolation elided).  The source's pure local
variables are the named definitions above. -/
def ExportThumbnailAsPNG (eng : Engine) (ObjectPath OutputPath : FString) :
    List Effect :=
  if ObjectPath.isEmpty || OutputPath.isEmpty then
    [.logWarning "Invalid input parameters!"]
  else
    match eng.getAssetByObjectPath ObjectPath with
    | none =>
      [.getAssetCall ObjectPath,
       .logWarning "Asset not found at path: %s"]
    | some MyObject =>
      if (ObjectThumbnail eng MyObject).uncompressedImageData.length = 0 then
        [.getAssetCall ObjectPath,
         .renderThumbnailCall MyObject 256 256,
         .logWarning "No thumbnail data for asset: %s"]
      else if eng.createImageWrapperJPEGValid = false then
        [.getAssetCall ObjectPath,
         .renderThumbnailCall MyObject 256 256,
         .logWarning "Failed to create ImageWrapper!"]
      else
        if (CompressedByteArray eng MyObject).length = 0 then
          [.getAssetCall ObjectPath,
           .renderThumbnailCall MyObject 256 256,
           .setRaw (ObjectThumbnail eng MyObject).uncompressedImageData.length
             (ObjectThumbnail eng MyObject).imageWidth
             (ObjectThumbnail eng MyObject).imageHeight
             ERGBFormat.BGRA 8,
           .getCompressedCall 95,
           .logWarning "Failed to compress image data!"]
        else
          [.getAssetCall ObjectPath,
           .renderThumbnailCall MyObject 256 256,
           .setRaw (ObjectThumbnail eng MyObject).uncompressedImageData.length
             (ObjectThumbnail eng MyObject).imageWidth
             (ObjectThumbnail eng MyObject).imageHeight
             ERGBFormat.BGRA 8,
           .getCompressedCall 95] ++
          (if eng.directoryExists (OutputDirectory OutputPath) then []
           else [.makeDirectory (OutputDirectory OutputPath) true]) ++
          [.saveArrayToFile (CompressedByteArray eng MyObject)
            (NewOutputPath OutputPath)
            (eng.saveFileOk (CompressedByteArray eng MyObject)
              (NewOutputPath OutputPath))] ++
          (if eng.saveFileOk (CompressedByteArray eng MyObject)
              (NewOutputPath OutputPath) then
            [.logInfo "Exported thumbnail to: %s"]
          else
            [.logWarning "Failed to save thumbnail to: %s"])

/-- The module class `FThumbnailExporterModule` has no data members; its
state is the empty record. -/
structure FThumbnailExporterModule where
deriving DecidableEq, Repr

/-- Embedding of `FThumbnailExporterModule::StartupModule`: returns the
(unchanged) module state and the effects performed. -/
def FThumbnailExporterModule.StartupModule (m : FThumbnailExporterModule) :
    FThumbnailExporterModule × List Effect :=
  (m, [.logWarning "ThumbnailExporter Plugin Loaded Successfully!"])

/-- Embedding of `FThumbnailExporterModule::ShutdownModule`. -/
def FThumbnailExporterModule.ShutdownModule (m : FThumbnailExporterModule) :
    FThumbnailExporterModule × List Effect :=
  (m, [.logWarning "ThumbnailExporter Plugin Unloaded!"])

/-- Embedding of `UThumbnailExporter::PrintTestMessage`. -/
def PrintTestMessage : List Effect :=
  [.logWarning "ThumbnailExporter Test Message: Plugin is Active and Working!"]

/-- The file paths at which a trace actually produced a file: the paths
of successful `SaveArrayToFile` calls. -/
def producedFiles (t : List Effect) : List FString :=
  t.filterMap fun e =>
    match e with
    | .saveArrayToFile _ p true => some p
    | _ => none

/-- A sample engine on which every step of the export succeeds and the
renderer honours the requested thumbnail size. -/
def demoEngine : Engine where
  getAssetByObjectPath := fun _ => some ⟨0⟩
  renderThumbnail := fun _ w h => ⟨[1, 2, 3, 4], w, h⟩
  createImageWrapperJPEGValid := true
  getCompressed := fun _ _ _ _ _ _ => [9, 9]
  directoryExists := fun _ => true
  saveFileOk := fun _ _ => true

/-- A sample engine whose renderer ignores the requested size and
reports 13 × 7 thumbnails. -/
def misalignedEngine : Engine where
  getAssetByObjectPath := fun _ => some ⟨0⟩
  renderThumbnail := fun _ _ _ => ⟨[1, 2, 3, 4], 13, 7⟩
  createImageWrapperJPEGValid := true
  getCompressed := fun _ _ _ _ _ _ => [9, 9]
  directoryExists := fun _ => true
  saveFileOk := fun _ _ => true

/-- A sample engine on which the output directory is missing and the
final file write succeeds. -/
def noDirEngine : Engine where
  getAssetByObjectPath := fun _ => some ⟨0⟩
  renderThumbnail := fun _ w h => ⟨[1, 2, 3, 4], w, h⟩
  createImageWrapperJPEGValid := true
  getCompressed := fun _ _ _ _ _ _ => [9, 9]
  directoryExists := fun _ => false
  saveFileOk := fun _ _ => true

/-- A sample engine on which the output directory is missing and the
final file write FAILS. -/
def failWriteEngine : Engine where
  getAssetByObjectPath := fun _ => some ⟨0⟩
  renderThumbnail := fun _ w h => ⟨[1, 2, 3, 4], w, h⟩
  createImageWrapperJPEGValid := true
  getCompressed := fun _ _ _ _ _ _ => [9, 9]
  directoryExists := fun _ => false
  saveFileOk := fun _ _ => false

example : FPaths.changeExtension ("a/b.png".toList) (".jpg".toList) = "a/b.jpg".toList := by decide
example : FPaths.changeExtension ("a/thumb".toList) (".jpg".toList) = "a/thumb".toList := by decide
example : FPaths.changeExtension ("a.dir/thumb".toList) (".jpg".toList) = "a.dir/thumb".toList := by decide
example : FPaths.getPath ("a/b.jpg".toList) = "a".toList := by decide
example : FPaths.getExtension ("a/b.jpg".toList) = "jpg".toList := by decide
example : FPaths.getExtension ("a/thumb".toList) = [] := by decide
example : FPaths.getBaseFilename ("a/b.png".toList) = "b".toList := by decide
example :
    ExportThumbnailAsPNG demoEngine ("A".toList) ("t.png".toList) =
      [.getAssetCall ("A".toList),
       .renderThumbnailCall ⟨0⟩ 256 256,
       .setRaw 4 256 256 ERGBFormat.BGRA 8,
       .getCompressedCall 95,
       .saveArrayToFile [9, 9] ("t.jpg".toList) true,
       .logInfo "Exported thumbnail to: %s"] := by decide

/-- Branch enumeration: every call to `ExportThumbnailAsPNG` takes
exactly one of the six source paths (invalid input, asset not found,
empty thumbnail data, invalid image wrapper, empty compressed buffer,
save attempt), and in each case the trace is the stated literal. -/
theorem export_branches (eng : Engine) (op out : FString) :
    ((op.isEmpty || out.isEmpty) = true ∧
      ExportThumbnailAsPNG eng op out = [.logWarning "Invalid input parameters!"]) ∨
    (¬ (op.isEmpty || out.isEmpty) = true ∧
      eng.getAssetByObjectPath op = none ∧
      ExportThumbnailAsPNG eng op out =
        [.getAssetCall op, .logWarning "Asset not found at path: %s"]) ∨
    (∃ obj, ¬ (op.isEmpty || out.isEmpty) = true ∧
      eng.getAssetByObjectPath op = some obj ∧
      (ObjectThumbnail eng obj).uncompressedImageData.length = 0 ∧
      ExportThumbnailAsPNG eng op out =
        [.getAssetCall op, .renderThumbnailCall obj 256 256,
         .logWarning "No thumbnail data for asset: %s"]) ∨
    (∃ obj, ¬ (op.isEmpty || out.isEmpty) = true ∧
      eng.getAssetByObjectPath op = some obj ∧
      ¬ (ObjectThumbnail eng obj).uncompressedImageData.length = 0 ∧
      eng.createImageWrapperJPEGValid = false ∧
      ExportThumbnailAsPNG eng op out =
        [.getAssetCall op, .renderThumbnailCall obj 256 256,
         .logWarning "Failed to create ImageWrapper!"]) ∨
    (∃ obj, ¬ (op.isEmpty || out.isEmpty) = true ∧
      eng.getAssetByObjectPath op = some obj ∧
      ¬ (ObjectThumbnail eng obj).uncompressedImageData.length = 0 ∧
      ¬ eng.createImageWrapperJPEGValid = false ∧
      (CompressedByteArray eng obj).length = 0 ∧
      ExportThumbnailAsPNG eng op out =
        [.getAssetCall op, .renderThumbnailCall obj 256 256,
         .setRaw (ObjectThumbnail eng obj).uncompressedImageData.length
           (ObjectThumbnail eng obj).imageWidth
           (ObjectThumbnail eng obj).imageHeight
           ERGBFormat.BGRA 8,
         .getCompressedCall 95,
         .logWarning "Failed to compress image data!"]) ∨
    (∃ obj, ¬ (op.isEmpty || out.isEmpty) = true ∧
      eng.getAssetByObjectPath op = some obj ∧
      ¬ (ObjectThumbnail eng obj).uncompressedImageData.length = 0 ∧
      ¬ eng.createImageWrapperJPEGValid = false ∧
      ¬ (CompressedByteArray eng obj).length = 0 ∧
      ExportThumbnailAsPNG eng op out =
        [.getAssetCall op, .renderThumbnailCall obj 256 256,
         .setRaw (ObjectThumbnail eng obj).uncompressedImageData.length
           (ObjectThumbnail eng obj).imageWidth
           (ObjectThumbnail eng obj).imageHeight
           ERGBFormat.BGRA 8,
         .getCompressedCall 95] ++
        (if eng.directoryExists (OutputDirectory out) then []
         else [.makeDirectory (OutputDirectory out) true]) ++
        [.saveArrayToFile (CompressedByteArray eng obj) (NewOutputPath out)
          (eng.saveFileOk (CompressedByteArray eng obj) (NewOutputPath out))] ++
        (if eng.saveFileOk (CompressedByteArray eng obj) (NewOutputPath out) then
          [.logInfo "Exported thumbnail to: %s"]
        else
          [.logWarning "Failed to save thumbnail to: %s"])) := by
  unfold ExportThumbnailAsPNG
  split
  case isTrue h0 =>
    exact Or.inl ⟨h0, rfl⟩
  case isFalse h0 =>
    split
    · rename_i hA
      exact Or.inr (Or.inl ⟨h0, hA, rfl⟩)
    · rename_i obj hA
      split
      · rename_i hd
        exact Or.inr (Or.inr (Or.inl ⟨obj, h0, hA, hd, rfl⟩))
      · rename_i hd
        split
        · rename_i hw
          exact Or.inr (Or.inr (Or.inr (Or.inl ⟨obj, h0, hA, hd, hw, rfl⟩)))
        · rename_i hw
          split
          · rename_i hc
            exact Or.inr (Or.inr (Or.inr (Or.inr (Or.inl ⟨obj, h0, hA, hd, hw, hc, rfl⟩))))
          · rename_i hc
            exact Or.inr (Or.inr (Or.inr (Or.inr (Or.inr ⟨obj, h0, hA, hd, hw, hc, rfl⟩))))

/-- Removing the extension does not change the directory part: the
scanned-off extension characters lie after the last separator. -/
theorem dropFileRev_of_chopExtRev {r s : List Char}
    (h : FPaths.chopExtRev r = some s) :
    FPaths.dropFileRev s = FPaths.dropFileRev r := by
  induction r with
  | nil => simp [FPaths.chopExtRev] at h
  | cons c rest ih =>
    rw [FPaths.chopExtRev] at h
    split at h
    · rename_i hdot
      cases h
      rw [hdot]
      rw [FPaths.dropFileRev]
      simp [isSlashOrBackslash]
    · split at h
      · cases h
      · rename_i hdot hsl
        rw [FPaths.dropFileRev, if_neg (by simpa using hsl)]
        exact ih h

/-- Chopping the extension commutes with restricting to the clean
filename. -/
theorem chopExtRev_takeFileRev_of_chopExtRev {r s : List Char}
    (h : FPaths.chopExtRev r = some s) :
    FPaths.chopExtRev (FPaths.takeFileRev r) = some (FPaths.takeFileRev s) := by
  induction r with
  | nil => simp [FPaths.chopExtRev] at h
  | cons c rest ih =>
    rw [FPaths.chopExtRev] at h
    split at h
    · rename_i hdot
      cases h
      rw [hdot]
      rw [FPaths.takeFileRev]
      simp [isSlashOrBackslash, FPaths.chopExtRev]
    · split at h
      · cases h
      · rename_i hdot hsl
        rw [FPaths.takeFileRev, if_neg (by simpa using hsl)]
        rw [FPaths.chopExtRev, if_neg hdot, if_neg (by simpa using hsl)]
        exact ih h

/-- A path with no extension has no dot in its clean filename. -/
theorem takeUntilDotRev_of_chopExtRev_none {r : List Char}
    (h : FPaths.chopExtRev r = none) :
    FPaths.takeUntilDotRev (FPaths.takeFileRev r) = none := by
  induction r with
  | nil => simp [FPaths.takeFileRev, FPaths.takeUntilDotRev]
  | cons c rest ih =>
    rw [FPaths.chopExtRev] at h
    split at h
    · cases h
    · split at h
      · rename_i hdot hsl
        rw [FPaths.takeFileRev, if_pos (by simpa using hsl)]
        simp [FPaths.takeUntilDotRev]
      · rename_i hdot hsl
        rw [FPaths.takeFileRev, if_neg (by simpa using hsl)]
        rw [FPaths.takeUntilDotRev, if_neg hdot]
        rw [ih h]
        rfl

/-- Scanning a reversed path that starts with the reversed `.jpg`
suffix: the clean-filename scan passes through those four characters. -/
theorem takeFileRev_jpgRev (L : List Char) :
    FPaths.takeFileRev ('g' :: 'p' :: 'j' :: '.' :: L) =
      'g' :: 'p' :: 'j' :: '.' :: FPaths.takeFileRev L := by
  simp [FPaths.takeFileRev, isSlashOrBackslash]

/-- The extension scan on a reversed string starting with the reversed
`.jpg` suffix yields exactly the reversed `jpg`. -/
theorem takeUntilDotRev_jpgRev (L : List Char) :
    FPaths.takeUntilDotRev ('g' :: 'p' :: 'j' :: '.' :: L) =
      some ['g', 'p', 'j'] := by
  simp [FPaths.takeUntilDotRev]

/-- Chopping the extension of a reversed string starting with the
reversed `.jpg` suffix removes exactly those four characters. -/
theorem chopExtRev_jpgRev (L : List Char) :
    FPaths.chopExtRev ('g' :: 'p' :: 'j' :: '.' :: L) = some L := by
  simp [FPaths.chopExtRev, isSlashOrBackslash]

/-- The directory scan passes over the reversed `.jpg` suffix. -/
theorem dropFileRev_jpgRev (L : List Char) :
    FPaths.dropFileRev ('g' :: 'p' :: 'j' :: '.' :: L) =
      FPaths.dropFileRev L := by
  simp [FPaths.dropFileRev, isSlashOrBackslash]

/-- When the output path has an extension, `NewOutputPath` is the stem
(the path up to but excluding the last dot) followed by `.jpg`. -/
theorem newOutputPath_of_hasExt {out : FString} {s : List Char}
    (h : FPaths.chopExtRev out.reverse = some s) :
    NewOutputPath out = s.reverse ++ ".jpg".toList := by
  rw [NewOutputPath, FPaths.changeExtension, h]
  simp

/-- When the output path has no extension, `NewOutputPath` is the
output path unchanged. -/
theorem newOutputPath_of_noExt {out : FString}
    (h : FPaths.chopExtRev out.reverse = none) :
    NewOutputPath out = out := by
  rw [NewOutputPath, FPaths.changeExtension, h]

/-- The reversed `NewOutputPath`, when the output path has an
extension, starts with the reversed `.jpg` suffix followed by the
reversed stem. -/
theorem newOutputPath_reverse_of_hasExt {out : FString} {s : List Char}
    (h : FPaths.chopExtRev out.reverse = some s) :
    (NewOutputPath out).reverse = 'g' :: 'p' :: 'j' :: '.' :: s := by
  rw [newOutputPath_of_hasExt h]
  simp

/-- When the output path has an extension, the path actually written
carries extension `jpg`. -/
theorem getExtension_newOutputPath_of_hasExt {out : FString} {s : List Char}
    (h : FPaths.chopExtRev out.reverse = some s) :
    FPaths.getExtension (NewOutputPath out) = "jpg".toList := by
  rw [FPaths.getExtension, newOutputPath_reverse_of_hasExt h,
    takeFileRev_jpgRev, takeUntilDotRev_jpgRev]
  rfl

/-- When the output path has no extension, it carries no extension
(and hence the written path carries none either). -/
theorem getExtension_of_noExt {out : FString}
    (h : FPaths.chopExtRev out.reverse = none) :
    FPaths.getExtension out = [] := by
  rw [FPaths.getExtension, takeUntilDotRev_of_chopExtRev_none h]

/-- Swapping the extension to `.jpg` preserves the directory part of
the output path. -/
theorem getPath_newOutputPath (out : FString) :
    FPaths.getPath (NewOutputPath out) = FPaths.getPath out := by
  cases h : FPaths.chopExtRev out.reverse with
  | none => rw [newOutputPath_of_noExt h]
  | some s =>
    rw [FPaths.getPath, newOutputPath_reverse_of_hasExt h, dropFileRev_jpgRev,
      dropFileRev_of_chopExtRev h, FPaths.getPath]

/-- When the output path has an extension, swapping it to `.jpg`
preserves the base file name. -/
theorem getBaseFilename_newOutputPath_of_hasExt {out : FString} {s : List Char}
    (h : FPaths.chopExtRev out.reverse = some s) :
    FPaths.getBaseFilename (NewOutputPath out) = FPaths.getBaseFilename out := by
  rw [FPaths.getBaseFilename, newOutputPath_reverse_of_hasExt h,
    takeFileRev_jpgRev, chopExtRev_jpgRev]
  rw [FPaths.getBaseFilename, chopExtRev_takeFileRev_of_chopExtRev h]

/-- Inversion for a `SaveArrayToFile` effect: a write attempt occurs
only on the final source branch, the bytes written are the compressed
buffer, the path is `NewOutputPath`, and the recorded outcome is the
engine's verdict on exactly that write. -/
theorem mem_save_elim {eng : Engine} {op out : FString} {bytes : List Nat}
    {p : FString} {ok : Bool}
    (h : Effect.saveArrayToFile bytes p ok ∈ ExportThumbnailAsPNG eng op out) :
    ∃ obj, ¬ (op.isEmpty || out.isEmpty) = true ∧
      eng.getAssetByObjectPath op = some obj ∧
      ¬ (ObjectThumbnail eng obj).uncompressedImageData.length = 0 ∧
      ¬ eng.createImageWrapperJPEGValid = false ∧
      ¬ (CompressedByteArray eng obj).length = 0 ∧
      bytes = CompressedByteArray eng obj ∧
      p = NewOutputPath out ∧
      ok = eng.saveFileOk (CompressedByteArray eng obj) (NewOutputPath out) ∧
      ExportThumbnailAsPNG eng op out =
        [.getAssetCall op, .renderThumbnailCall obj 256 256,
         .setRaw (ObjectThumbnail eng obj).uncompressedImageData.length
           (ObjectThumbnail eng obj).imageWidth
           (ObjectThumbnail eng obj).imageHeight
           ERGBFormat.BGRA 8,
         .getCompressedCall 95] ++
        (if eng.directoryExists (OutputDirectory out) then []
         else [.makeDirectory (OutputDirectory out) true]) ++
        [.saveArrayToFile (CompressedByteArray eng obj) (NewOutputPath out)
          (eng.saveFileOk (CompressedByteArray eng obj) (NewOutputPath out))] ++
        (if eng.saveFileOk (CompressedByteArray eng obj) (NewOutputPath out) then
          [.logInfo "Exported thumbnail to: %s"]
        else
          [.logWarning "Failed to save thumbnail to: %s"]) := by
  rcases export_branches eng op out with
    ⟨h0, ht⟩ | ⟨h0, hA, ht⟩ | ⟨obj, h0, hA, hd, ht⟩ | ⟨obj, h0, hA, hd, hw, ht⟩ |
    ⟨obj, h0, hA, hd, hw, hc, ht⟩ | ⟨obj, h0, hA, hd, hw, hc, ht⟩
  · rw [ht] at h; simp at h
  · rw [ht] at h; simp at h
  · rw [ht] at h; simp at h
  · rw [ht] at h; simp at h
  · rw [ht] at h; simp at h
  · rw [ht] at h
    refine ⟨obj, h0, hA, hd, hw, hc, ?_, ?_, ?_, ht⟩ <;>
    · by_cases hdir : eng.directoryExists (OutputDirectory out) = true <;>
        by_cases hsv : eng.saveFileOk (CompressedByteArray eng obj)
          (NewOutputPath out) = true <;>
        simp only [hdir, hsv, if_pos, if_neg, Bool.false_eq_true,
          not_false_eq_true, ite_true, ite_false] at h <;>
        simp_all

/-- Inversion for a `SetRaw` effect: the raw buffer handed to the image
wrapper is the rendered thumbnail's own data at the thumbnail's own
reported dimensions, in BGRA at bit depth 8, and the corresponding
256 × 256 render request is in the trace. -/
theorem mem_setRaw_elim {eng : Engine} {op out : FString}
    {dl w hgt : Nat} {fmt : ERGBFormat} {bd : Nat}
    (h : Effect.setRaw dl w hgt fmt bd ∈ ExportThumbnailAsPNG eng op out) :
    ∃ obj, eng.getAssetByObjectPath op = some obj ∧
      dl = (ObjectThumbnail eng obj).uncompressedImageData.length ∧
      w = (ObjectThumbnail eng obj).imageWidth ∧
      hgt = (ObjectThumbnail eng obj).imageHeight ∧
      fmt = ERGBFormat.BGRA ∧ bd = 8 ∧
      Effect.renderThumbnailCall obj 256 256 ∈ ExportThumbnailAsPNG eng op out := by
  rcases export_branches eng op out with
    ⟨h0, ht⟩ | ⟨h0, hA, ht⟩ | ⟨obj, h0, hA, hd, ht⟩ | ⟨obj, h0, hA, hd, hw, ht⟩ |
    ⟨obj, h0, hA, hd, hw, hc, ht⟩ | ⟨obj, h0, hA, hd, hw, hc, ht⟩
  · rw [ht] at h; simp at h
  · rw [ht] at h; simp at h
  · rw [ht] at h; simp at h
  · rw [ht] at h; simp at h
  · rw [ht] at h
    simp at h
    exact ⟨obj, hA, h.1, h.2.1, h.2.2.1, h.2.2.2.1, h.2.2.2.2,
      by rw [ht]; simp⟩
  · rw [ht] at h
    by_cases hdir : eng.directoryExists (OutputDirectory out) = true <;>
      by_cases hsv : eng.saveFileOk (CompressedByteArray eng obj)
        (NewOutputPath out) = true <;>
      simp only [hdir, hsv, Bool.false_eq_true, if_pos, if_neg,
        not_false_eq_true, ite_true, ite_false] at h <;>
      simp at h <;>
      exact ⟨obj, hA, h.1, h.2.1, h.2.2.1, h.2.2.2.1, h.2.2.2.2,
        by rw [ht]; simp⟩

/-- Inversion for a `GetCompressed` call: the only quality ever passed
to the compressor is 95. -/
theorem mem_getCompressedCall_elim {eng : Engine} {op out : FString} {q : Nat}
    (h : Effect.getCompressedCall q ∈ ExportThumbnailAsPNG eng op out) :
    q = 95 := by
  rcases export_branches eng op out with
    ⟨h0, ht⟩ | ⟨h0, hA, ht⟩ | ⟨obj, h0, hA, hd, ht⟩ | ⟨obj, h0, hA, hd, hw, ht⟩ |
    ⟨obj, h0, hA, hd, hw, hc, ht⟩ | ⟨obj, h0, hA, hd, hw, hc, ht⟩
  · rw [ht] at h; simp at h
  · rw [ht] at h; simp at h
  · rw [ht] at h; simp at h
  · rw [ht] at h; simp at h
  · rw [ht] at h; simp at h; exact h
  · rw [ht] at h
    by_cases hdir : eng.directoryExists (OutputDirectory out) = true <;>
      by_cases hsv : eng.saveFileOk (CompressedByteArray eng obj)
        (NewOutputPath out) = true <;>
      simp only [hdir, hsv, Bool.false_eq_true, if_pos, if_neg,
        not_false_eq_true, ite_true, ite_false] at h <;>
      simp at h <;> exact h

/-- C3: when the asset path string or the output path string is empty,
the routine performs exactly one effect — the warning log — so no file
is ever produced and no asset lookup, rendering, compression or
file-system operation happens. -/
theorem C3_empty_input_logs_and_returns (eng : Engine) (op out : FString)
    (h : op = [] ∨ out = []) :
    ExportThumbnailAsPNG eng op out = [.logWarning "Invalid input parameters!"] ∧
    producedFiles (ExportThumbnailAsPNG eng op out) = [] ∧
    ∀ e ∈ ExportThumbnailAsPNG eng op out, e.isLog = true := by
  have h0 : (op.isEmpty || out.isEmpty) = true := by
    rcases h with h | h <;> simp [h]
  have ht : ExportThumbnailAsPNG eng op out =
      [.logWarning "Invalid input parameters!"] := by
    rw [ExportThumbnailAsPNG, if_pos h0]
  refine ⟨ht, ?_, ?_⟩
  · rw [ht]; rfl
  · intro e he
    rw [ht] at he
    simp at he
    rw [he]
    rfl

/-- C3 witness: the concrete call with an empty asset path. -/
theorem C3_witness :
    (("".toList : FString) = [] ∨ ("x.png".toList : FString) = []) ∧
    (ExportThumbnailAsPNG demoEngine ("".toList) ("x.png".toList) =
        [.logWarning "Invalid input parameters!"] ∧
      producedFiles (ExportThumbnailAsPNG demoEngine ("".toList) ("x.png".toList)) = [] ∧
      ∀ e ∈ ExportThumbnailAsPNG demoEngine ("".toList) ("x.png".toList),
        e.isLog = true) :=
  ⟨Or.inl (by decide),
   C3_empty_input_logs_and_returns demoEngine ("".toList) ("x.png".toList)
     (Or.inl (by decide))⟩

/-- C5: whenever the routine reaches the compression step, the quality
passed to `GetCompressed` is 95; no call site can pass any other
value. -/
theorem C5_compression_quality_always_95 (eng : Engine) (op out : FString)
    (q : Nat)
    (h : Effect.getCompressedCall q ∈ ExportThumbnailAsPNG eng op out) :
    q = 95 :=
  mem_getCompressedCall_elim h

/-- C5 witness: a concrete call that reaches the compression step. -/
theorem C5_witness :
    Effect.getCompressedCall 95 ∈
      ExportThumbnailAsPNG demoEngine ("A".toList) ("t.png".toList) ∧
    (95 : Nat) = 95 :=
  ⟨by decide,
   C5_compression_quality_always_95 demoEngine ("A".toList) ("t.png".toList) 95
     (by decide)⟩

/-- C7: `StartupModule` and `ShutdownModule` leave the module state
unchanged and each produce exactly one effect, a log line with its
fixed message. -/
theorem C7_module_hooks_log_only (m : FThumbnailExporterModule) :
    m.StartupModule =
      (m, [.logWarning "ThumbnailExporter Plugin Loaded Successfully!"]) ∧
    m.ShutdownModule =
      (m, [.logWarning "ThumbnailExporter Plugin Unloaded!"]) ∧
    (m.StartupModule).2.length = 1 ∧
    (m.ShutdownModule).2.length = 1 ∧
    (∀ e ∈ (m.StartupModule).2, e.isLog = true) ∧
    (∀ e ∈ (m.ShutdownModule).2, e.isLog = true) := by
  refine ⟨rfl, rfl, rfl, rfl, ?_, ?_⟩ <;>
  · intro e he
    simp [FThumbnailExporterModule.StartupModule,
      FThumbnailExporterModule.ShutdownModule] at he
    rw [he]
    rfl

/-- C2: under the engine contract that `RenderThumbnail` fills the
thumbnail at the requested dimensions, the dimensions handed to the
image encoder — hence the dimensions of any exported image — are
exactly 256 × 256, for every source asset. -/
theorem C2_exported_dimensions_always_256 (eng : Engine) (op out : FString)
    (dl w hgt : Nat) (fmt : ERGBFormat) (bd : Nat)
    (hon : ∀ o a b, (eng.renderThumbnail o a b).imageWidth = a ∧
      (eng.renderThumbnail o a b).imageHeight = b)
    (h : Effect.setRaw dl w hgt fmt bd ∈ ExportThumbnailAsPNG eng op out) :
    w = 256 ∧ hgt = 256 := by
  obtain ⟨obj, _, _, hw, hh, _, _, _⟩ := mem_setRaw_elim h
  rw [hw, hh, ObjectThumbnail]
  exact ⟨(hon obj 256 256).1, (hon obj 256 256).2⟩

/-- C2 witness: a concrete size-honouring engine and a call whose
encoder receives 256 × 256. -/
theorem C2_witness :
    Effect.setRaw 4 256 256 ERGBFormat.BGRA 8 ∈
      ExportThumbnailAsPNG demoEngine ("A".toList) ("t.png".toList) ∧
    ((256 : Nat) = 256 ∧ (256 : Nat) = 256) :=
  ⟨by decide,
   C2_exported_dimensions_always_256 demoEngine ("A".toList) ("t.png".toList)
     4 256 256 ERGBFormat.BGRA 8 (fun _ _ _ => ⟨rfl, rfl⟩) (by decide)⟩

/-- C8: the dimensions passed to the encoder are the rendered
thumbnail's own reported `GetImageWidth`/`GetImageHeight` for the
object looked up — not the 256 constant that was requested — so the
encoded image has whatever dimensions the renderer actually
produced. -/
theorem C8_encoder_uses_thumbnail_dimensions (eng : Engine) (op out : FString)
    (dl w hgt : Nat) (fmt : ERGBFormat) (bd : Nat)
    (h : Effect.setRaw dl w hgt fmt bd ∈ ExportThumbnailAsPNG eng op out) :
    ∃ obj, eng.getAssetByObjectPath op = some obj ∧
      Effect.renderThumbnailCall obj 256 256 ∈ ExportThumbnailAsPNG eng op out ∧
      w = (eng.renderThumbnail obj 256 256).imageWidth ∧
      hgt = (eng.renderThumbnail obj 256 256).imageHeight := by
  obtain ⟨obj, hA, _, hw, hh, _, _, hr⟩ := mem_setRaw_elim h
  exact ⟨obj, hA, hr, hw, hh⟩

/-- C8 witness: an engine whose renderer ignores the request and
reports 13 × 7; the encoder receives 13 × 7. -/
theorem C8_witness :
    Effect.setRaw 4 13 7 ERGBFormat.BGRA 8 ∈
      ExportThumbnailAsPNG misalignedEngine ("A".toList) ("t.png".toList) ∧
    ∃ obj, misalignedEngine.getAssetByObjectPath ("A".toList) = some obj ∧
      Effect.renderThumbnailCall obj 256 256 ∈
        ExportThumbnailAsPNG misalignedEngine ("A".toList) ("t.png".toList) ∧
      13 = (misalignedEngine.renderThumbnail obj 256 256).imageWidth ∧
      7 = (misalignedEngine.renderThumbnail obj 256 256).imageHeight :=
  ⟨by decide,
   C8_encoder_uses_thumbnail_dimensions misalignedEngine ("A".toList)
     ("t.png".toList) 4 13 7 ERGBFormat.BGRA 8 (by decide)⟩

/-- C1 counterexample: with an output path that has no extension
(`thumb`), every engine step succeeds and a file is produced — at
`thumb` itself, whose extension is not `jpg`.  So a successful write
does not always produce a `.jpg`-extension file. -/
theorem C1_counterexample :
    Effect.saveArrayToFile [9, 9] ("thumb".toList) true ∈
      ExportThumbnailAsPNG demoEngine ("A".toList) ("thumb".toList) ∧
    producedFiles (ExportThumbnailAsPNG demoEngine ("A".toList) ("thumb".toList)) =
      [("thumb".toList)] ∧
    FPaths.getExtension ("thumb".toList) ≠ "jpg".toList := by
  decide

/-- C1 (amended): for every successful write, the produced file's
extension is never `png`; when the supplied output path has an
extension the file is at the extension-swapped path and its extension
is `jpg`; when the output path has no extension the file is written at
the supplied path unchanged. -/
theorem C1_amended_never_png (eng : Engine) (op out : FString)
    (bytes : List Nat) (p : FString)
    (h : Effect.saveArrayToFile bytes p true ∈ ExportThumbnailAsPNG eng op out) :
    FPaths.getExtension p ≠ "png".toList ∧
    (FPaths.hasExtension out = true →
      p = NewOutputPath out ∧ FPaths.getExtension p = "jpg".toList) ∧
    (FPaths.hasExtension out = false → p = out) := by
  obtain ⟨obj, _, _, _, _, _, _, hp, _, _⟩ := mem_save_elim h
  subst hp
  cases hch : FPaths.chopExtRev out.reverse with
  | none =>
    rw [newOutputPath_of_noExt hch]
    refine ⟨?_, ?_, fun _ => rfl⟩
    · rw [getExtension_of_noExt hch]; decide
    · intro hex
      rw [FPaths.hasExtension, hch] at hex
      simp at hex
  | some s =>
    refine ⟨?_, fun _ => ⟨rfl, getExtension_newOutputPath_of_hasExt hch⟩, ?_⟩
    · rw [getExtension_newOutputPath_of_hasExt hch]; decide
    · intro hnex
      rw [FPaths.hasExtension, hch] at hnex
      simp at hnex

/-- C1 witness: a successful write with a `.png`-suffixed output path
lands at the `.jpg`-swapped path. -/
theorem C1_witness :
    Effect.saveArrayToFile [9, 9] ("pic.jpg".toList) true ∈
      ExportThumbnailAsPNG demoEngine ("A".toList) ("pic.png".toList) ∧
    (FPaths.getExtension ("pic.jpg".toList) ≠ "png".toList ∧
     (FPaths.hasExtension ("pic.png".toList) = true →
       ("pic.jpg".toList : FString) = NewOutputPath ("pic.png".toList) ∧
       FPaths.getExtension ("pic.jpg".toList) = "jpg".toList) ∧
     (FPaths.hasExtension ("pic.png".toList) = false →
       ("pic.jpg".toList : FString) = "pic.png".toList)) :=
  ⟨by decide,
   C1_amended_never_png demoEngine ("A".toList) ("pic.png".toList) [9, 9]
     ("pic.jpg".toList) (by decide)⟩

/-- The claim's reading of the written path: the output path with its
extension (if any) stripped and `.jpg` appended, so that the written
path always ends in `.jpg`.  Stated from the claim's words, for
comparison against the source's `NewOutputPath`. -/
def claimedOutputPath (out : FString) : FString :=
  (match FPaths.chopExtRev out.reverse with
   | some stemRev => stemRev.reverse
   | none => out) ++ ".jpg".toList

/-- C9 counterexample: for the extensionless output path `Dir/thumb`
the routine writes to `Dir/thumb` itself, which is not the claimed
extension-replaced path `Dir/thumb.jpg` and carries no `jpg`
extension. -/
theorem C9_counterexample :
    Effect.saveArrayToFile [9, 9] ("Dir/thumb".toList) true ∈
      ExportThumbnailAsPNG demoEngine ("A".toList) ("Dir/thumb".toList) ∧
    ("Dir/thumb".toList : FString) ≠ claimedOutputPath ("Dir/thumb".toList) ∧
    FPaths.getExtension ("Dir/thumb".toList) ≠ "jpg".toList := by
  decide

/-- C9 (amended): the path written is always
`ChangeExtension(OutputPath, ".jpg")`; its directory portion equals the
caller's; when the caller's path has an extension, the base file name
is preserved and only the extension (now `jpg`) differs; when it has no
extension, the written path is the caller's path unchanged. -/
theorem C9_amended_written_path (eng : Engine) (op out : FString)
    (bytes : List Nat) (p : FString) (ok : Bool)
    (h : Effect.saveArrayToFile bytes p ok ∈ ExportThumbnailAsPNG eng op out) :
    p = NewOutputPath out ∧
    FPaths.getPath p = FPaths.getPath out ∧
    (FPaths.hasExtension out = true →
      FPaths.getBaseFilename p = FPaths.getBaseFilename out ∧
      FPaths.getExtension p = "jpg".toList) ∧
    (FPaths.hasExtension out = false → p = out) := by
  obtain ⟨obj, _, _, _, _, _, _, hp, _, _⟩ := mem_save_elim h
  subst hp
  refine ⟨rfl, getPath_newOutputPath out, ?_, ?_⟩
  · intro hex
    cases hch : FPaths.chopExtRev out.reverse with
    | none =>
      rw [FPaths.hasExtension, hch] at hex
      simp at hex
    | some s =>
      exact ⟨getBaseFilename_newOutputPath_of_hasExt hch,
        getExtension_newOutputPath_of_hasExt hch⟩
  · intro hnex
    cases hch : FPaths.chopExtRev out.reverse with
    | none => exact newOutputPath_of_noExt hch
    | some s =>
      rw [FPaths.hasExtension, hch] at hnex
      simp at hnex

/-- C9 witness: with output path `img.png`, the write lands at
`img.jpg`, same directory and base name. -/
theorem C9_witness :
    Effect.saveArrayToFile [9, 9] ("img.jpg".toList) true ∈
      ExportThumbnailAsPNG demoEngine ("A".toList) ("img.png".toList) ∧
    (("img.jpg".toList : FString) = NewOutputPath ("img.png".toList) ∧
     FPaths.getPath ("img.jpg".toList) = FPaths.getPath ("img.png".toList) ∧
     (FPaths.hasExtension ("img.png".toList) = true →
       FPaths.getBaseFilename ("img.jpg".toList) =
         FPaths.getBaseFilename ("img.png".toList) ∧
       FPaths.getExtension ("img.jpg".toList) = "jpg".toList) ∧
     (FPaths.hasExtension ("img.png".toList) = false →
       ("img.jpg".toList : FString) = "img.png".toList)) :=
  ⟨by decide,
   C9_amended_written_path demoEngine ("A".toList) ("img.png".toList) [9, 9]
     ("img.jpg".toList) true (by decide)⟩

/-- C6: whenever a write is attempted and the directory of the written
path does not exist, a recursive `MakeDirectory` (tree flag set) on
that directory strictly precedes the write attempt in the trace. -/
theorem C6_directory_created_before_write (eng : Engine) (op out : FString)
    (bytes : List Nat) (p : FString) (ok : Bool)
    (h : Effect.saveArrayToFile bytes p ok ∈ ExportThumbnailAsPNG eng op out)
    (hdir : eng.directoryExists (FPaths.getPath p) = false) :
    ∃ i j : Nat, i < j ∧
      (ExportThumbnailAsPNG eng op out).get? i =
        some (Effect.makeDirectory (FPaths.getPath p) true) ∧
      (ExportThumbnailAsPNG eng op out).get? j =
        some (Effect.saveArrayToFile bytes p ok) := by
  obtain ⟨obj, _, _, _, _, _, hb, hp, hok, ht⟩ := mem_save_elim h
  subst hb; subst hp; subst hok
  have hdir' : ¬ (eng.directoryExists (OutputDirectory out) = true) := by
    simp [OutputDirectory, hdir]
  rw [ht, if_neg hdir']
  exact ⟨4, 5, by norm_num, rfl, rfl⟩

/-- C6 witness: an engine reporting the output directory missing; the
recursive directory creation appears in the trace before the write. -/
theorem C6_witness :
    (Effect.saveArrayToFile [9, 9] ("d/t.jpg".toList) true ∈
       ExportThumbnailAsPNG noDirEngine ("A".toList) ("d/t.png".toList)) ∧
    noDirEngine.directoryExists (FPaths.getPath ("d/t.jpg".toList)) = false ∧
    ∃ i j : Nat, i < j ∧
      (ExportThumbnailAsPNG noDirEngine ("A".toList) ("d/t.png".toList)).get? i =
        some (Effect.makeDirectory (FPaths.getPath ("d/t.jpg".toList)) true) ∧
      (ExportThumbnailAsPNG noDirEngine ("A".toList) ("d/t.png".toList)).get? j =
        some (Effect.saveArrayToFile [9, 9] ("d/t.jpg".toList) true) :=
  ⟨by decide, by decide,
   C6_directory_created_before_write noDirEngine ("A".toList) ("d/t.png".toList)
     [9, 9] ("d/t.jpg".toList) true (by decide) (by decide)⟩

/-- C10: when compression succeeds but the write fails and the output
directory was missing, the directory has been created (recursively)
and the only effects after that creation are the failed write attempt
and the warning log — nothing removes the directory. -/
theorem C10_mkdir_persists_on_failed_write (eng : Engine) (op out : FString)
    (bytes : List Nat) (p : FString)
    (h : Effect.saveArrayToFile bytes p false ∈ ExportThumbnailAsPNG eng op out)
    (hdir : eng.directoryExists (FPaths.getPath p) = false) :
    Effect.makeDirectory (FPaths.getPath p) true ∈
      ExportThumbnailAsPNG eng op out ∧
    ∃ obj, ExportThumbnailAsPNG eng op out =
      [.getAssetCall op,
       .renderThumbnailCall obj 256 256,
       .setRaw (ObjectThumbnail eng obj).uncompressedImageData.length
         (ObjectThumbnail eng obj).imageWidth
         (ObjectThumbnail eng obj).imageHeight
         ERGBFormat.BGRA 8,
       .getCompressedCall 95,
       .makeDirectory (FPaths.getPath p) true,
       .saveArrayToFile bytes p false,
       .logWarning "Failed to save thumbnail to: %s"] := by
  obtain ⟨obj, _, _, _, _, _, hb, hp, hok, ht⟩ := mem_save_elim h
  subst hb; subst hp
  have hdir' : ¬ (eng.directoryExists (OutputDirectory out) = true) := by
    simp [OutputDirectory, hdir]
  have hsv : ¬ (eng.saveFileOk (CompressedByteArray eng obj)
      (NewOutputPath out) = true) := by
    rw [← hok]
    simp
  have ht2 : ExportThumbnailAsPNG eng op out =
      [.getAssetCall op,
       .renderThumbnailCall obj 256 256,
       .setRaw (ObjectThumbnail eng obj).uncompressedImageData.length
         (ObjectThumbnail eng obj).imageWidth
         (ObjectThumbnail eng obj).imageHeight
         ERGBFormat.BGRA 8,
       .getCompressedCall 95,
       .makeDirectory (FPaths.getPath (NewOutputPath out)) true,
       .saveArrayToFile (CompressedByteArray eng obj) (NewOutputPath out) false,
       .logWarning "Failed to save thumbnail to: %s"] := by
    rw [ht, if_neg hdir', if_neg hsv, ← hok]
    simp [OutputDirectory, NewOutputPath]
  rw [ht2]
  exact ⟨by simp, obj, rfl⟩

/-- C10 witness: missing directory plus failing write — the directory
creation is in the trace and the trace ends with the attempt and the
warning. -/
theorem C10_witness :
    (Effect.saveArrayToFile [9, 9] ("d/t.jpg".toList) false ∈
       ExportThumbnailAsPNG failWriteEngine ("A".toList) ("d/t.png".toList)) ∧
    failWriteEngine.directoryExists (FPaths.getPath ("d/t.jpg".toList)) = false ∧
    (Effect.makeDirectory (FPaths.getPath ("d/t.jpg".toList)) true ∈
       ExportThumbnailAsPNG failWriteEngine ("A".toList) ("d/t.png".toList) ∧
     ∃ obj, ExportThumbnailAsPNG failWriteEngine ("A".toList) ("d/t.png".toList) =
       [.getAssetCall ("A".toList),
        .renderThumbnailCall obj 256 256,
        .setRaw (ObjectThumbnail failWriteEngine obj).uncompressedImageData.length
          (ObjectThumbnail failWriteEngine obj).imageWidth
          (ObjectThumbnail failWriteEngine obj).imageHeight
          ERGBFormat.BGRA 8,
        .getCompressedCall 95,
        .makeDirectory (FPaths.getPath ("d/t.jpg".toList)) true,
        .saveArrayToFile [9, 9] ("d/t.jpg".toList) false,
        .logWarning "Failed to save thumbnail to: %s"]) :=
  ⟨by decide, by decide,
   C10_mkdir_persists_on_failed_write failWriteEngine ("A".toList)
     ("d/t.png".toList) [9, 9] ("d/t.jpg".toList) (by decide) (by decide)⟩

/-- C4: every call either succeeds — the trace ends with the success
log and contains a successful write — or fails, in which case the
trace ends with a warning log, that warning is the only log line
emitted, nothing follows it, and no file is produced.  The routine's
return type is `void` (here: the trace alone), so no error is ever
signalled to the caller. -/
theorem C4_failures_log_and_return (eng : Engine) (op out : FString) :
    (∃ m, (ExportThumbnailAsPNG eng op out).getLast? = some (.logInfo m) ∧
      ∃ b p, Effect.saveArrayToFile b p true ∈ ExportThumbnailAsPNG eng op out) ∨
    (∃ m, (ExportThumbnailAsPNG eng op out).getLast? = some (.logWarning m) ∧
      (ExportThumbnailAsPNG eng op out).filter Effect.isLog = [.logWarning m] ∧
      ∀ b p, Effect.saveArrayToFile b p true ∉ ExportThumbnailAsPNG eng op out) := by
  rcases export_branches eng op out with
    ⟨h0, ht⟩ | ⟨h0, hA, ht⟩ | ⟨obj, h0, hA, hd, ht⟩ | ⟨obj, h0, hA, hd, hw, ht⟩ |
    ⟨obj, h0, hA, hd, hw, hc, ht⟩ | ⟨obj, h0, hA, hd, hw, hc, ht⟩
  · exact Or.inr ⟨_, by rw [ht]; rfl, by rw [ht]; rfl, fun b p => by rw [ht]; simp⟩
  · exact Or.inr ⟨_, by rw [ht]; rfl, by rw [ht]; rfl, fun b p => by rw [ht]; simp⟩
  · exact Or.inr ⟨_, by rw [ht]; rfl, by rw [ht]; rfl, fun b p => by rw [ht]; simp⟩
  · exact Or.inr ⟨_, by rw [ht]; rfl, by rw [ht]; rfl, fun b p => by rw [ht]; simp⟩
  · exact Or.inr ⟨_, by rw [ht]; rfl, by rw [ht]; rfl, fun b p => by rw [ht]; simp⟩
  · by_cases hsv : eng.saveFileOk (CompressedByteArray eng obj)
      (NewOutputPath out) = true
    · refine Or.inl ⟨"Exported thumbnail to: %s", ?_,
        CompressedByteArray eng obj, NewOutputPath out, ?_⟩
      · rw [ht, if_pos hsv]
        by_cases hdir : eng.directoryExists (OutputDirectory out) = true
        · rw [if_pos hdir]; rfl
        · rw [if_neg hdir]; rfl
      · rw [ht]
        simp [hsv]
    · have hsv' : eng.saveFileOk (CompressedByteArray eng obj)
          (NewOutputPath out) = false := by simpa using hsv
      refine Or.inr ⟨"Failed to save thumbnail to: %s", ?_, ?_, ?_⟩
      · rw [ht, if_neg hsv]
        by_cases hdir : eng.directoryExists (OutputDirectory out) = true
        · rw [if_pos hdir]; rfl
        · rw [if_neg hdir]; rfl
      · rw [ht, if_neg hsv]
        by_cases hdir : eng.directoryExists (OutputDirectory out) = true
        · rw [if_pos hdir]; rfl
        · rw [if_neg hdir]; rfl
      · intro b p hmem
        rw [ht] at hmem
        by_cases hdir : eng.directoryExists (OutputDirectory out) = true <;>
          simp only [hdir, Bool.false_eq_true, if_pos, if_neg,
            not_false_eq_true, ite_true, ite_false] at hmem <;>
          simp [hsv'] at hmem

end ThumbnailExporter
